import Mathlib

/-!
Verification of the running-plan dashboard (`src/app.py`).

The computational core of the program is embedded shallowly:
Python `float` arithmetic is modelled exactly over `ℚ` (and over `ℝ` for the
two functions that use a non-integral power), Python strings are modelled as
`String`/`List Char`, and every Python operation that can raise an exception
is modelled by an `Option` result (`none` = an uncaught exception or an
explicit `None` return, as indicated at each definition).
-/

/-! ### Python string and number primitives -/

/-- One decimal digit character; `digitChar d` models rendering of digit `d`
in Python decimal formatting (only `d < 10` is ever reached). -/
def digitChar (d : Nat) : Char :=
  if d = 0 then '0' else if d = 1 then '1' else if d = 2 then '2'
  else if d = 3 then '3' else if d = 4 then '4' else if d = 5 then '5'
  else if d = 6 then '6' else if d = 7 then '7' else if d = 8 then '8'
  else if d = 9 then '9' else '?'

/-- Fuel-driven decimal rendering of a natural number (most significant digit
first), as produced by Python `f"{n:d}"` for `n ≥ 0`. -/
def natDigitsAux : Nat → Nat → List Char
  | 0, _ => []
  | fuel + 1, n =>
    if n < 10 then [digitChar n]
    else natDigitsAux fuel (n / 10) ++ [digitChar (n % 10)]

/-- Decimal digits of `n`, e.g. `natDigits 125 = ['1','2','5']`. -/
def natDigits (n : Nat) : List Char :=
  natDigitsAux (n + 1) n

/-- Python `f"{i:d}"`: decimal rendering of an integer. -/
def intStr (i : ℤ) : List Char :=
  if i < 0 then '-' :: natDigits i.natAbs else natDigits i.natAbs

/-- Python `f"{i:02d}"`: decimal rendering zero-padded to width 2 (a single
digit gets a leading `'0'`; anything already at least 2 characters wide is
rendered plainly). -/
def pad2 (i : ℤ) : List Char :=
  if 0 ≤ i ∧ i < 10 then '0' :: natDigits i.natAbs else intStr i

/-- Python `str.strip()`: drop whitespace from both ends. -/
def pyStrip (l : List Char) : List Char :=
  ((l.dropWhile Char.isWhitespace).reverse.dropWhile Char.isWhitespace).reverse

/-- Python `str.split(sep)` for a one-character separator: split on every
occurrence of `sep`, keeping empty pieces (so the result always has
`1 + number of separators` pieces). -/
def pySplitOn (sep : Char) : List Char → List (List Char)
  | [] => [[]]
  | c :: rest =>
    if c = sep then [] :: pySplitOn sep rest
    else
      match pySplitOn sep rest with
      | [] => [[c]]
      | t :: ts => (c :: t) :: ts

/-- Helper for `pySplitWs`: accumulates the current token (reversed). -/
def pySplitWsAux : List Char → List Char → List (List Char)
  | [], acc => if acc = [] then [] else [acc.reverse]
  | c :: rest, acc =>
    if c.isWhitespace then
      if acc = [] then pySplitWsAux rest []
      else acc.reverse :: pySplitWsAux rest []
    else pySplitWsAux rest (c :: acc)

/-- Python `str.split()` with no argument: split on whitespace runs,
discarding empty tokens. -/
def pySplitWs (l : List Char) : List (List Char) :=
  pySplitWsAux l []

/-- Value of an ASCII digit character, `none` for any other character. -/
def digitVal (c : Char) : Option Nat :=
  if c = '0' then some 0 else if c = '1' then some 1 else if c = '2' then some 2
  else if c = '3' then some 3 else if c = '4' then some 4 else if c = '5' then some 5
  else if c = '6' then some 6 else if c = '7' then some 7 else if c = '8' then some 8
  else if c = '9' then some 9 else none

/-- Value of the digit list, `none` if empty or if any character is not an
ASCII digit. -/
def digitsVal (l : List Char) : Option Nat :=
  if l = [] then none
  else
    l.foldl
      (fun acc c =>
        match acc, digitVal c with
        | some n, some d => some (n * 10 + d)
        | _, _ => none)
      (some 0)

/-- Python `int(s)` on a decimal string: strip whitespace, allow one leading
sign, then ASCII digits; anything else raises `ValueError`, modelled as
`none`.  (CPython additionally accepts underscore digit grouping and
non-ASCII decimal digits; no theorem below depends on such inputs.) -/
def pyIntOfChars (l : List Char) : Option ℤ :=
  match pyStrip l with
  | '+' :: rest => (digitsVal rest).map Int.ofNat
  | '-' :: rest => (digitsVal rest).map (fun n => -(n : ℤ))
  | t => (digitsVal t).map Int.ofNat

/-- Sequence a list of options: `some` of the list of values iff every
element is `some`.  Models a Python list comprehension in which any element
may raise. -/
def seqOption {α : Type} : List (Option α) → Option (List α)
  | [] => some []
  | o :: rest =>
    match o with
    | none => none
    | some a => (seqOption rest).map (fun l => a :: l)

/-- Python 3 `round` to an integer: round half to even (banker's rounding),
modelled exactly on `ℚ`. -/
def pyRound (q : ℚ) : ℤ :=
  if q - ⌊q⌋ < 1 / 2 then ⌊q⌋
  else if 1 / 2 < q - ⌊q⌋ then ⌊q⌋ + 1
  else if ⌊q⌋ % 2 = 0 then ⌊q⌋ else ⌊q⌋ + 1

/-- Python `int(x)` on a number: truncation toward zero. -/
def pyTrunc (q : ℚ) : ℤ :=
  if 0 ≤ q then ⌊q⌋ else ⌈q⌉

/-- Python `round(x, 1)`: round to one decimal place (half to even). -/
def round1 (q : ℚ) : ℚ :=
  (pyRound (q * 10) : ℚ) / 10

/-- Python `round(x, 2)`: round to two decimal places (half to even). -/
def round2 (q : ℚ) : ℚ :=
  (pyRound (q * 100) : ℚ) / 100

/-! ### `parse_time_to_min` (src/app.py lines 10–28) -/

/-- Body of `parse_time_to_min` on the character list of the input string:
`if not time_str: return None`; otherwise strip, split on `':'`, convert
every part with `int` (any failure is caught and returns `None`), then
interpret 2 parts as `m:ss` and 3 parts as `h:mm:ss`; any other number of
parts returns `None`.  Result in minutes. -/
def parse_time_to_min_chars (l : List Char) : Option ℚ :=
  if l = [] then none
  else
    match seqOption ((pySplitOn ':' (pyStrip l)).map pyIntOfChars) with
    | none => none
    | some [m, s] => some ((m : ℚ) + (s : ℚ) / 60)
    | some [h, m, s] => some ((h : ℚ) * 60 + (m : ℚ) + (s : ℚ) / 60)
    | some _ => none

/-- `parse_time_to_min(time_str)`: parse `'mm:ss'` or `'h:mm:ss'` into
minutes; `None` (here `none`) if empty or invalid. -/
def parse_time_to_min (time_str : String) : Option ℚ :=
  parse_time_to_min_chars time_str.toList

example : parse_time_to_min "45" = none := by decide
example : parse_time_to_min "" = none := by rfl
example : parse_time_to_min "abc" = none := by decide

/-! ### Formatting and speed/pace conversion (src/app.py lines 31–57) -/

/-- `format_min_to_hms(minutes)`: round the minutes to whole seconds, then
render `h:mm:ss` when at least one hour, else `m:ss`.  Integer `/` and `%`
here are Lean's Euclidean division, which agrees with Python's `//` and `%`
for the positive divisors used. -/
def format_min_to_hms (minutes : ℚ) : String :=
  let total_seconds := pyRound (minutes * 60)
  let h := total_seconds / 3600
  let m := total_seconds % 3600 / 60
  let s := total_seconds % 60
  if 0 < h then String.mk (intStr h ++ [':'] ++ pad2 m ++ [':'] ++ pad2 s)
  else String.mk (intStr m ++ [':'] ++ pad2 s)

/-- `speed_from_time(distance_km, time_min)`: km/h given km and minutes.
Python raises `ZeroDivisionError` when `time_min / 60.0` is zero, modelled
as `none`. -/
def speed_from_time (distance_km time_min : ℚ) : Option ℚ :=
  if time_min / 60 = 0 then none else some (distance_km / (time_min / 60))

/-- `pace_from_speed(speed_kmh)`: pace in min/km from speed in km/h.
Python raises `ZeroDivisionError` on zero speed, modelled as `none`. -/
def pace_from_speed (speed_kmh : ℚ) : Option ℚ :=
  if speed_kmh = 0 then none else some (60 / speed_kmh)

/-- `format_pace(pace_min_per_km)`: `m:ss /km` with second rollover
(`int` truncates toward zero, `round` is half-to-even). -/
def format_pace (pace_min_per_km : ℚ) : String :=
  let m := pyTrunc pace_min_per_km
  let s := pyRound ((pace_min_per_km - m) * 60)
  let m := if s = 60 then m + 1 else m
  let s := if s = 60 then 0 else s
  String.mk (intStr m ++ [':'] ++ pad2 s ++ [' ', '/', 'k', 'm'])

/-! ### Durability and marathon model (src/app.py lines 62–123)

These two functions use a non-integral power, so they are embedded over `ℝ`
with `Real.rpow` (Python `**`).  They are faithful on the domains used by the
theorems below: for `estimate_df_from_decay_and_volume` the division by a
zero Riegel prediction — Python `ZeroDivisionError` — is modelled as `none`;
`marathon_time_from_ats_df` is modelled on `ats_kmh > 0` (Python raises or
returns a complex number for `ats_kmh ≤ 0`, and raises for `df = 0`). -/

/-- `estimate_df_from_decay_and_volume(ten_k_min, marathon_min, annual_km)`:
base DF from the 10K→marathon Riegel decay when both times are given
(neutral `1.0` otherwise), times a volume factor around 6000 km/year,
clamped to `[0.75, 1.30]`. -/
noncomputable def estimate_df_from_decay_and_volume
    (ten_k_min marathon_min : Option ℝ) (annual_km : ℝ) : Option ℝ :=
  let df_base? : Option ℝ :=
    match ten_k_min, marathon_min with
    | some t, some mar =>
      let predicted_mar_min := t * Real.rpow (42.195 / 10) 1.06
      if predicted_mar_min = 0 then none
      else some (1 + (1.08 - mar / predicted_mar_min) * 1.5)
    | _, _ => some 1
  df_base?.map (fun df_base =>
    let vol_factor := 1 + 0.15 * (annual_km / 6000 - 1)
    max 0.75 (min 1.30 (df_base * vol_factor)))

/-- `marathon_time_from_ats_df(ats_kmh, df)`: marathon prediction in minutes,
`base = 4666 * ats_kmh ** -1.33`, result `base / df + 8.0`. -/
noncomputable def marathon_time_from_ats_df (ats_kmh df : ℝ) : ℝ :=
  4666 * Real.rpow ats_kmh (-1.33) / df + 8

/-! ### Plan templates and expansion (src/app.py lines 128–219) -/

/-- One day of a `PLAN_TEMPLATES` entry. -/
structure Block where
  day : String
  name : String
  zone : String
  dist_pct : ℚ
deriving DecidableEq

/-- `PLAN_TEMPLATES`: the four canned weekly structures, as the ordered
association list of the Python dict literal. -/
def PLAN_TEMPLATES : List (String × List Block) :=
  [("Pfitzinger",
    [⟨"Mon", "Recovery", "Z1", 10/100⟩,
     ⟨"Tue", "LT / Tempo", "Z4", 15/100⟩,
     ⟨"Wed", "Medium Long", "Z2", 18/100⟩,
     ⟨"Thu", "Recovery", "Z1", 10/100⟩,
     ⟨"Fri", "General Aerobic", "Z2", 12/100⟩,
     ⟨"Sat", "VO2 / Intervals", "Z5", 10/100⟩,
     ⟨"Sun", "Long Run (with MP finish)", "Z2_Z3", 25/100⟩]),
   ("Daniels",
    [⟨"Mon", "Easy + strides", "Z1", 12/100⟩,
     ⟨"Tue", "Threshold (T) session", "Z4", 16/100⟩,
     ⟨"Wed", "Medium Long", "Z2", 18/100⟩,
     ⟨"Thu", "Easy", "Z1", 10/100⟩,
     ⟨"Fri", "Intervals (I) / VO2", "Z5", 14/100⟩,
     ⟨"Sat", "Easy", "Z1", 10/100⟩,
     ⟨"Sun", "Long Run", "Z2_Z3", 20/100⟩]),
   ("Canova",
    [⟨"Mon", "Easy regeneration", "Z1", 10/100⟩,
     ⟨"Tue", "Specific Marathon (MP + fast finish)", "Z3_Z4", 20/100⟩,
     ⟨"Wed", "Medium Long easy", "Z2", 18/100⟩,
     ⟨"Thu", "Easy", "Z1", 10/100⟩,
     ⟨"Fri", "Special Block / Alternations", "Z3_Z4", 17/100⟩,
     ⟨"Sat", "Easy", "Z1", 10/100⟩,
     ⟨"Sun", "Long Run with segments at MP", "Z2_Z3", 15/100⟩]),
   ("Tinman",
    [⟨"Mon", "Easy", "Z1", 14/100⟩,
     ⟨"Tue", "Cruise Intervals (CV)", "Z4", 16/100⟩,
     ⟨"Wed", "Easy", "Z1", 14/100⟩,
     ⟨"Thu", "Tempo / Steady", "Z3", 16/100⟩,
     ⟨"Fri", "Easy", "Z1", 10/100⟩,
     ⟨"Sat", "Short Intervals / Speed", "Z5", 10/100⟩,
     ⟨"Sun", "Long Run", "Z2_Z3", 20/100⟩])]

/-- Association-list lookup, modelling Python dict subscription
`d[k]` (`none` = `KeyError`). -/
def alist_get {α : Type} : List (String × α) → String → Option α
  | [], _ => none
  | (k, v) :: rest, key => if k = key then some v else alist_get rest key

/-- The zone factor of `zone_speed_from_mp`'s `if/elif` chain. -/
def zone_factor (zone : String) : ℚ :=
  if zone = "Z1" then 78/100
  else if zone = "Z2" then 88/100
  else if zone = "Z3" then 98/100
  else if zone = "Z4" then 108/100
  else if zone = "Z5" then 118/100
  else if zone = "Z2_Z3" then 93/100
  else if zone = "Z3_Z4" then 103/100
  else 88/100

/-- `zone_speed_from_mp(mp_speed, zone)`: target speed for a zone as a
fraction of marathon-pace speed. -/
def zone_speed_from_mp (mp_speed : ℚ) (zone : String) : ℚ :=
  mp_speed * zone_factor zone

/-- One row of the weekly-plan dataframe built by `expand_plan`. -/
structure Row where
  day : String
  workout : String
  zone : String
  distance_km : ℚ
  target_pace : String
  target_speed_kmh : ℚ
deriving DecidableEq

/-- Body of `expand_plan`'s loop for one template block: distance is
`weekly_km * dist_pct` rounded to 1 decimal, the target pace string is
formatted from the zone speed (`none` = the `ZeroDivisionError` raised by
`pace_from_speed` on a zero zone speed). -/
def expand_block (weekly_km mp_speed : ℚ) (block : Block) : Option Row :=
  let dist_km := weekly_km * block.dist_pct
  let spd := zone_speed_from_mp mp_speed block.zone
  match pace_from_speed spd with
  | none => none
  | some pace =>
    some ⟨block.day, block.name, block.zone, round1 dist_km,
          format_pace pace, round2 spd⟩

/-- `expand_plan(plan_name, weekly_km, mp_speed)`: look the template up in
`PLAN_TEMPLATES` and expand each block to a dataframe row. -/
def expand_plan (plan_name : String) (weekly_km mp_speed : ℚ) :
    Option (List Row) :=
  match alist_get PLAN_TEMPLATES plan_name with
  | none => none
  | some template => seqOption (template.map (expand_block weekly_km mp_speed))

/-! ### `compute_weekly_ats` (src/app.py lines 222–247) -/

/-- `row["Target_pace"].split()[0]` followed by `parse_time_to_min`:
outer `none` models the `IndexError` of `split()[0]` on a token-less
string, the inner option is the parse result. -/
def row_pace_min (row : Row) : Option (Option ℚ) :=
  match pySplitWs row.target_pace.toList with
  | [] => none
  | tok :: _ => some (parse_time_to_min_chars tok)

/-- The first loop of `compute_weekly_ats`: it only builds the (unused)
`speeds` list, but `speed_from_time(d, d * pace_min)` raises
`ZeroDivisionError` when `d = 0`, so the loop's only observable effect is
whether an exception escapes (`none`). -/
def speeds_loop : List Row → Option Unit
  | [] => some ()
  | row :: rest =>
    match row_pace_min row with
    | none => none
    | some pace? =>
      match pace? with
      | none => speeds_loop rest
      | some pace_min =>
        if pace_min ≤ 0 then speeds_loop rest
        else
          match speed_from_time row.distance_km (row.distance_km * pace_min) with
          | none => none
          | some _ => speeds_loop rest

/-- The second loop of `compute_weekly_ats`: total time in hours over the
rows whose pace parses to a positive value (`none` = the `IndexError` of
`split()[0]`). -/
def time_loop : List Row → Option ℚ
  | [] => some 0
  | row :: rest =>
    match row_pace_min row with
    | none => none
    | some pace? =>
      match pace? with
      | none => time_loop rest
      | some pace_min =>
        if pace_min ≤ 0 then time_loop rest
        else (time_loop rest).map (fun t => row.distance_km * pace_min / 60 + t)

/-- `compute_weekly_ats(df)`: `0.0` when the total distance over all rows is
zero, else run both loops (either may raise, `none`), then `0.0` when the
accumulated valid time is zero, else total distance over all rows divided by
that time. -/
def compute_weekly_ats (rows : List Row) : Option ℚ :=
  let total_km := (rows.map Row.distance_km).sum
  if total_km = 0 then some 0
  else
    match speeds_loop rows with
    | none => none
    | some _ =>
      match time_loop rows with
      | none => none
      | some total_time_h =>
        if total_time_h = 0 then some 0
        else some (total_km / total_time_h)

/-! ### `summarize_zones` (src/app.py lines 250–282)

Only the `zone_km` aggregation dict is needed by the claims; the rest of the
function sorts the keys and renders a rounded table from `zone_km`.  The
dict is modelled as an insertion-ordered association list. -/

/-- `d.get(k, 0.0)` on the association-list dict. -/
def dget : List (String × ℚ) → String → ℚ
  | [], _ => 0
  | (k, v) :: rest, key => if k = key then v else dget rest key

/-- `d[k] = v` on the association-list dict (Python dicts update an existing
key in place and append a new key). -/
def dset : List (String × ℚ) → String → ℚ → List (String × ℚ)
  | [], key, v => [(key, v)]
  | (k, w) :: rest, key, v =>
    if k = key then (key, v) :: rest else (k, w) :: dset rest key v

/-- One iteration of the `zone_km` loop of `summarize_zones`: a mixed zone
(`"Z2_Z3"` or `"Z3_Z4"`) adds half the row's distance to each part of
`z.split("_")`; any other label adds the full distance to its own key. -/
def zone_km_step (acc : List (String × ℚ)) (row : Row) : List (String × ℚ) :=
  let z := row.zone
  let km := row.distance_km
  if z = "Z2_Z3" ∨ z = "Z3_Z4" then
    (pySplitOn '_' z.toList).foldl
      (fun a part =>
        dset a (String.mk part) (dget a (String.mk part) + km * (1/2)))
      acc
  else dset acc z (dget acc z + km)

/-- The `zone_km` dict accumulated by `summarize_zones` over the dataframe
rows. -/
def zone_km (rows : List Row) : List (String × ℚ) :=
  rows.foldl zone_km_step []

/-! ### Spec-side definitions

These follow the specification's words, to be compared with the embedded
code; they are not translations of `src/app.py`. -/

/-- Spec: a segment is valid when its pace string parses to a finite
positive value (`compute_weekly_ats` never checks the distance). -/
def row_valid (row : Row) : Bool :=
  match row_pace_min row with
  | some (some pace_min) => decide (0 < pace_min)
  | _ => false

/-- The parsed pace of a row (0 when invalid; only used on valid rows). -/
def row_pace_val (row : Row) : ℚ :=
  match row_pace_min row with
  | some (some pace_min) => pace_min
  | _ => 0

/-- Spec: `True` when the pace string has at least one whitespace-separated
token, so that `split()[0]` does not raise. -/
def has_pace_token (row : Row) : Bool :=
  !(pySplitWs row.target_pace.toList).isEmpty

/-- Spec: total distance over all rows. -/
def spec_total_km (rows : List Row) : ℚ :=
  (rows.map Row.distance_km).sum

/-- Spec: total distance over the valid rows only (the numerator of the
claimed ATS formula). -/
def spec_valid_km (rows : List Row) : ℚ :=
  ((rows.filter row_valid).map Row.distance_km).sum

/-- Spec: total time in hours over the valid rows,
`sum of timeMinutes over valid segments / 60`. -/
def spec_time_h (rows : List Row) : ℚ :=
  ((rows.filter row_valid).map
    (fun r => r.distance_km * row_pace_val r / 60)).sum

/-- Spec: half-or-full credit of one row toward zone `z` — half the
distance to each constituent of a mixed `"Z2_Z3"`/`"Z3_Z4"` label, the full
distance to the row's own label otherwise. -/
def zone_credit (row : Row) (z : String) : ℚ :=
  if row.zone = "Z2_Z3" then
    if z = "Z2" ∨ z = "Z3" then row.distance_km / 2 else 0
  else if row.zone = "Z3_Z4" then
    if z = "Z3" ∨ z = "Z4" then row.distance_km / 2 else 0
  else if row.zone = z then row.distance_km else 0

/-- The concrete weekly plan produced by
`expand_plan "Pfitzinger" 100 7000`, used in the analysis of
`compute_weekly_ats` (an extreme marathon-pace speed makes the Z4 and Z5
paces format as `"0:00 /km"`, which parse to the invalid pace 0). -/
def pfitzinger_week_7000 : List Row :=
  [⟨"Mon", "Recovery", "Z1", 10, "0:01 /km", 5460⟩,
   ⟨"Tue", "LT / Tempo", "Z4", 15, "0:00 /km", 7560⟩,
   ⟨"Wed", "Medium Long", "Z2", 18, "0:01 /km", 6160⟩,
   ⟨"Thu", "Recovery", "Z1", 10, "0:01 /km", 5460⟩,
   ⟨"Fri", "General Aerobic", "Z2", 12, "0:01 /km", 6160⟩,
   ⟨"Sat", "VO2 / Intervals", "Z5", 10, "0:00 /km", 8260⟩,
   ⟨"Sun", "Long Run (with MP finish)", "Z2_Z3", 25, "0:01 /km", 6510⟩]

/-! ### Helper lemmas -/

theorem pyRound_dist (q : ℚ) : |(pyRound q : ℚ) - q| ≤ 1 / 2 := by
  have h1 : (⌊q⌋ : ℚ) ≤ q := Int.floor_le q
  have h2 : q < ⌊q⌋ + 1 := Int.lt_floor_add_one q
  unfold pyRound
  split
  next h =>
    rw [abs_sub_comm, abs_of_nonneg (by linarith)]
    linarith
  next h =>
    split
    next h3 =>
      push_cast
      rw [abs_of_nonneg (by linarith)]
      linarith
    next h3 =>
      split
      next =>
        rw [abs_sub_comm, abs_of_nonneg (by linarith)]
        linarith
      next =>
        push_cast
        rw [abs_of_nonneg (by linarith)]
        linarith

theorem round1_dist (q : ℚ) : |round1 q - q| ≤ 1 / 20 := by
  unfold round1
  have h := pyRound_dist (q * 10)
  have heq : (pyRound (q * 10) : ℚ) / 10 - q = ((pyRound (q * 10) : ℚ) - q * 10) / 10 := by
    ring
  rw [heq, abs_div, abs_of_pos (by norm_num : (0:ℚ) < 10)]
  rw [div_le_div_iff₀ (by norm_num) (by norm_num)]
  linarith

theorem zone_factor_ne_zero (z : String) : zone_factor z ≠ 0 := by
  unfold zone_factor
  split_ifs <;> norm_num

theorem expand_block_eq (w mp : ℚ) (hmp : mp ≠ 0) (b : Block) :
    expand_block w mp b =
      some ⟨b.day, b.name, b.zone, round1 (w * b.dist_pct),
            format_pace (60 / (mp * zone_factor b.zone)),
            round2 (mp * zone_factor b.zone)⟩ := by
  have h : mp * zone_factor b.zone ≠ 0 := mul_ne_zero hmp (zone_factor_ne_zero b.zone)
  simp only [expand_block, pace_from_speed, zone_speed_from_mp, if_neg h]

theorem expand_block_mp_zero (w : ℚ) (b : Block) : expand_block w 0 b = none := by
  simp only [expand_block, pace_from_speed, zone_speed_from_mp, zero_mul, if_pos]

theorem seqOption_map_of_some {α β : Type} (f : α → Option β) (g : α → β)
    (l : List α) (h : ∀ a ∈ l, f a = some (g a)) :
    seqOption (l.map f) = some (l.map g) := by
  induction l with
  | nil => rfl
  | cons a t ih =>
    have ha := h a (List.mem_cons_self a t)
    have ih' := ih (fun x hx => h x (List.mem_cons_of_mem a hx))
    simp only [List.map_cons, seqOption, ha, ih', Option.map_some']

theorem alist_get_mem {α : Type} :
    ∀ (d : List (String × α)) (k : String) (v : α),
      alist_get d k = some v → (k, v) ∈ d := by
  intro d
  induction d with
  | nil => intro k v h; exact absurd h (by simp [alist_get])
  | cons p rest ih =>
    intro k v h
    unfold alist_get at h
    by_cases hk : p.1 = k
    · rw [if_pos hk] at h
      have : p = (k, v) := by
        cases p
        simp_all
      rw [← this]
      exact List.mem_cons_self p rest
    · rw [if_neg hk] at h
      exact List.mem_cons_of_mem p (ih k v h)

theorem sum_round1_dist (w : ℚ) :
    ∀ ps : List ℚ,
      |(ps.map (fun p => round1 (w * p))).sum - w * ps.sum| ≤ ps.length * (1 / 20) := by
  intro ps
  induction ps with
  | nil => simp
  | cons p t ih =>
    have h1 := round1_dist (w * p)
    have habs := abs_add (round1 (w * p) - w * p)
      ((t.map (fun p => round1 (w * p))).sum - w * t.sum)
    simp only [List.map_cons, List.sum_cons, List.length_cons]
    have heq : round1 (w * p) + (t.map (fun p => round1 (w * p))).sum -
        w * (p + t.sum) =
        (round1 (w * p) - w * p) +
          ((t.map (fun p => round1 (w * p))).sum - w * t.sum) := by ring
    rw [heq]
    push_cast
    calc |(round1 (w * p) - w * p) +
        ((t.map (fun p => round1 (w * p))).sum - w * t.sum)|
        ≤ |round1 (w * p) - w * p| +
          |(t.map (fun p => round1 (w * p))).sum - w * t.sum| := habs
      _ ≤ 1 / 20 + t.length * (1 / 20) := by
          have := ih
          gcongr  -- hmm may fail; fallback add_le_add
      _ = (t.length + 1) * (1 / 20) := by ring

theorem mem_of_mem_pyStrip {c : Char} {l : List Char} (h : c ∈ pyStrip l) :
    c ∈ l := by
  unfold pyStrip at h
  rw [List.mem_reverse] at h
  have h2 := (List.dropWhile_sublist (l := (l.dropWhile Char.isWhitespace).reverse)
    (p := Char.isWhitespace)).mem h
  rw [List.mem_reverse] at h2
  exact (List.dropWhile_sublist (l := l) (p := Char.isWhitespace)).mem h2

theorem pySplitOn_of_not_mem {sep : Char} :
    ∀ {l : List Char}, sep ∉ l → pySplitOn sep l = [l] := by
  intro l
  induction l with
  | nil => intro _; rfl
  | cons c t ih =>
    intro h
    have hc : c ≠ sep := fun hcs => h (by rw [hcs]; exact List.mem_cons_self sep t)
    have ht : sep ∉ t := fun hm => h (List.mem_cons_of_mem c hm)
    simp only [pySplitOn, if_neg hc, ih ht]

theorem pySplitOn_append {sep : Char} :
    ∀ {a : List Char} (rest : List Char), sep ∉ a →
      pySplitOn sep (a ++ sep :: rest) = a :: pySplitOn sep rest := by
  intro a
  induction a with
  | nil => intro rest _; simp [pySplitOn]
  | cons c t ih =>
    intro rest h
    have hc : c ≠ sep := fun hcs => h (by rw [hcs]; exact List.mem_cons_self sep t)
    have ht : sep ∉ t := fun hm => h (List.mem_cons_of_mem c hm)
    have h2 := ih rest ht
    rw [List.cons_append]
    simp only [pySplitOn, if_neg hc]
    rw [h2]

theorem toList_mk (l : List Char) : (String.mk l).toList = l := rfl

theorem digitChar_ne_colon (n : Nat) : digitChar n ≠ ':' := by
  unfold digitChar
  split_ifs <;> decide

theorem colon_not_mem_natDigitsAux : ∀ fuel n : Nat, ':' ∉ natDigitsAux fuel n := by
  intro fuel
  induction fuel with
  | zero => intro n; simp [natDigitsAux]
  | succ fuel ih =>
    intro n
    unfold natDigitsAux
    split
    · intro hmem
      exact digitChar_ne_colon n (List.mem_singleton.mp hmem).symm
    · intro hmem
      rcases List.mem_append.mp hmem with h | h
      · exact ih (n / 10) h
      · exact digitChar_ne_colon (n % 10) (List.mem_singleton.mp h).symm

theorem colon_not_mem_natDigits (n : Nat) : ':' ∉ natDigits n :=
  colon_not_mem_natDigitsAux (n + 1) n

theorem colon_not_mem_intStr (i : ℤ) : ':' ∉ intStr i := by
  unfold intStr
  split
  · intro hmem
    rcases List.mem_cons.mp hmem with h | h
    · exact absurd h (by decide)
    · exact colon_not_mem_natDigits i.natAbs h
  · exact colon_not_mem_natDigits i.natAbs

theorem colon_not_mem_pad2 (i : ℤ) : ':' ∉ pad2 i := by
  unfold pad2
  split
  · intro hmem
    rcases List.mem_cons.mp hmem with h | h
    · exact absurd h (by decide)
    · exact colon_not_mem_natDigits i.natAbs h
  · exact colon_not_mem_intStr i

theorem format_min_to_hms_components (minutes : ℚ) :
    (pySplitOn ':' (format_min_to_hms minutes).toList).length =
      if 3600 ≤ pyRound (minutes * 60) then 3 else 2 := by
  have hcond : (0 < pyRound (minutes * 60) / 3600) ↔ 3600 ≤ pyRound (minutes * 60) := by
    omega
  by_cases h : (0:ℤ) < pyRound (minutes * 60) / 3600
  · rw [if_pos (hcond.mp h)]
    simp only [format_min_to_hms, if_pos h, toList_mk]
    rw [List.append_assoc, List.append_assoc, List.append_assoc,
      List.singleton_append, List.singleton_append]
    rw [pySplitOn_append _ (colon_not_mem_intStr _)]
    rw [pySplitOn_append _ (colon_not_mem_pad2 _)]
    rw [pySplitOn_of_not_mem (colon_not_mem_pad2 _)]
    rfl
  · rw [if_neg (fun hh => h (hcond.mpr hh))]
    simp only [format_min_to_hms, if_neg h, toList_mk]
    rw [List.append_assoc, List.singleton_append]
    rw [pySplitOn_append _ (colon_not_mem_intStr _)]
    rw [pySplitOn_of_not_mem (colon_not_mem_pad2 _)]
    rfl

example : format_min_to_hms 125.5 = "2:05:30" := by with_unfolding_all rfl
example : format_min_to_hms 5 = "5:00" := by with_unfolding_all rfl

theorem natDigitsAux_single (fuel k : Nat) (h : k < 10) :
    natDigitsAux (fuel + 1) k = [digitChar k] := by
  unfold natDigitsAux
  rw [if_pos h]

theorem natDigits_length_two {n : Nat} (h1 : 10 ≤ n) (h2 : n < 100) :
    (natDigits n).length = 2 := by
  unfold natDigits
  obtain ⟨m, rfl⟩ : ∃ m, n = m + 1 := ⟨n - 1, by omega⟩
  unfold natDigitsAux
  rw [if_neg (by omega)]
  rw [natDigitsAux_single m _ (by omega)]
  rfl

theorem pad2_length {m : ℤ} (h0 : 0 ≤ m) (h1 : m < 60) : (pad2 m).length = 2 := by
  unfold pad2
  by_cases h : m < 10
  · rw [if_pos ⟨h0, h⟩]
    have hsing : natDigits m.natAbs = [digitChar m.natAbs] := by
      unfold natDigits
      exact natDigitsAux_single _ _ (by omega)
    rw [hsing]
    rfl
  · rw [if_neg (by tauto)]
    unfold intStr
    rw [if_neg (by omega)]
    exact natDigits_length_two (by omega) (by omega)

theorem format_min_to_hms_split (minutes : ℚ)
    (h : 3600 ≤ pyRound (minutes * 60)) :
    pySplitOn ':' (format_min_to_hms minutes).toList =
      [intStr (pyRound (minutes * 60) / 3600),
       pad2 (pyRound (minutes * 60) % 3600 / 60),
       pad2 (pyRound (minutes * 60) % 60)] := by
  have hpos : (0:ℤ) < pyRound (minutes * 60) / 3600 := by omega
  simp only [format_min_to_hms, if_pos hpos, toList_mk]
  rw [List.append_assoc, List.append_assoc, List.append_assoc,
    List.singleton_append, List.singleton_append]
  rw [pySplitOn_append _ (colon_not_mem_intStr _)]
  rw [pySplitOn_append _ (colon_not_mem_pad2 _)]
  rw [pySplitOn_of_not_mem (colon_not_mem_pad2 _)]

theorem row_pace_min_isSome_of_token {r : Row} (h : has_pace_token r = true) :
    ∃ pace?, row_pace_min r = some pace? := by
  unfold has_pace_token at h
  unfold row_pace_min
  cases hws : pySplitWs r.target_pace.toList with
  | nil => rw [hws] at h; simp at h
  | cons t ts => exact ⟨_, rfl⟩

theorem row_valid_of_pace {r : Row} {p : ℚ} (hp : row_pace_min r = some (some p))
    (hpos : 0 < p) : row_valid r = true := by
  unfold row_valid
  rw [hp]
  simpa using hpos

theorem row_valid_false_of_none {r : Row} (hp : row_pace_min r = some none) :
    row_valid r = false := by
  unfold row_valid
  rw [hp]

theorem row_valid_false_of_nonpos {r : Row} {p : ℚ}
    (hp : row_pace_min r = some (some p)) (hle : p ≤ 0) : row_valid r = false := by
  unfold row_valid
  rw [hp]
  simpa using hle

theorem row_pace_val_eq {r : Row} {p : ℚ} (hp : row_pace_min r = some (some p)) :
    row_pace_val r = p := by
  unfold row_pace_val
  rw [hp]

theorem speeds_loop_some :
    ∀ rows : List Row,
      (∀ r ∈ rows, has_pace_token r = true) →
      (∀ r ∈ rows, row_valid r = true → r.distance_km ≠ 0) →
      speeds_loop rows = some () := by
  intro rows
  induction rows with
  | nil => intro _ _; rfl
  | cons r rest ih =>
    intro h1 h2
    have ih' := ih (fun x hx => h1 x (List.mem_cons_of_mem r hx))
      (fun x hx => h2 x (List.mem_cons_of_mem r hx))
    obtain ⟨pace?, hp⟩ := row_pace_min_isSome_of_token (h1 r (List.mem_cons_self r rest))
    cases pace? with
    | none =>
      simp only [speeds_loop, hp]
      exact ih'
    | some p =>
      by_cases hple : p ≤ 0
      · simp only [speeds_loop, hp, if_pos hple]
        exact ih'
      · have hpos : 0 < p := lt_of_not_le hple
        have hd : r.distance_km ≠ 0 :=
          h2 r (List.mem_cons_self r rest) (row_valid_of_pace hp hpos)
        have ht : r.distance_km * p / 60 ≠ 0 := by
          rw [div_ne_zero_iff]
          exact ⟨mul_ne_zero hd (ne_of_gt hpos), by norm_num⟩
        simp only [speeds_loop, hp, if_neg hple, speed_from_time, if_neg ht]
        exact ih'

theorem time_loop_some :
    ∀ rows : List Row,
      (∀ r ∈ rows, has_pace_token r = true) →
      time_loop rows = some (spec_time_h rows) := by
  intro rows
  induction rows with
  | nil => intro _; rfl
  | cons r rest ih =>
    intro h1
    have ih' := ih (fun x hx => h1 x (List.mem_cons_of_mem r hx))
    obtain ⟨pace?, hp⟩ := row_pace_min_isSome_of_token (h1 r (List.mem_cons_self r rest))
    cases pace? with
    | none =>
      simp only [time_loop, hp, ih']
      unfold spec_time_h
      rw [List.filter_cons_of_neg (by simp [row_valid_false_of_none hp])]
    | some p =>
      by_cases hple : p ≤ 0
      · simp only [time_loop, hp, if_pos hple, ih']
        unfold spec_time_h
        rw [List.filter_cons_of_neg (by simp [row_valid_false_of_nonpos hp hple])]
      · have hpos : 0 < p := lt_of_not_le hple
        simp only [time_loop, hp, if_neg hple, ih', Option.map_some']
        unfold spec_time_h
        rw [List.filter_cons_of_pos (by simp [row_valid_of_pace hp hpos])]
        simp only [List.map_cons, List.sum_cons]
        rw [row_pace_val_eq hp]

theorem compute_weekly_ats_spec (rows : List Row)
    (h1 : ∀ r ∈ rows, has_pace_token r = true)
    (h2 : ∀ r ∈ rows, row_valid r = true → r.distance_km ≠ 0) :
    compute_weekly_ats rows =
      some (if spec_total_km rows = 0 then 0
            else if spec_time_h rows = 0 then 0
            else spec_total_km rows / spec_time_h rows) := by
  unfold compute_weekly_ats
  by_cases h0 : (rows.map Row.distance_km).sum = 0
  · rw [if_pos h0]
    unfold spec_total_km
    rw [if_pos h0]
  · rw [if_neg h0]
    simp only [speeds_loop_some rows h1 h2, time_loop_some rows h1]
    unfold spec_total_km
    rw [if_neg h0]
    by_cases ht : spec_time_h rows = 0
    · rw [if_pos ht, if_pos ht]
    · rw [if_neg ht, if_neg ht]

theorem dget_dset :
    ∀ (d : List (String × ℚ)) (k k' : String) (v : ℚ),
      dget (dset d k v) k' = if k = k' then v else dget d k' := by
  intro d
  induction d with
  | nil => intro k k' v; rfl
  | cons pair rest ih =>
    intro k k' v
    obtain ⟨k0, w⟩ := pair
    by_cases h0 : k0 = k
    · simp only [dset, if_pos h0, dget]
      by_cases hk : k = k'
      · rw [if_pos hk, if_pos hk]
      · rw [if_neg hk, if_neg hk, if_neg (fun hc => hk (h0.symm.trans hc))]
    · simp only [dset, if_neg h0, dget, ih]
      by_cases hk0 : k0 = k'
      · have hk : k ≠ k' := fun hc => h0 (hk0.trans hc.symm)
        rw [if_pos hk0, if_neg hk, if_pos hk0]
      · rw [if_neg hk0, if_neg hk0]

theorem dget_zone_km_step (acc : List (String × ℚ)) (r : Row) (z : String) :
    dget (zone_km_step acc r) z = dget acc z + zone_credit r z := by
  have e2 : String.mk ['Z', '2'] = "Z2" := rfl
  have e3 : String.mk ['Z', '3'] = "Z3" := rfl
  have e4 : String.mk ['Z', '4'] = "Z4" := rfl
  by_cases h23 : r.zone = "Z2_Z3"
  · unfold zone_km_step zone_credit
    rw [if_pos (Or.inl h23), if_pos h23, h23]
    have hsplit : pySplitOn '_' "Z2_Z3".toList = [['Z', '2'], ['Z', '3']] := by decide
    rw [hsplit]
    simp only [List.foldl_cons, List.foldl_nil, e2, e3]
    simp only [dget_dset]
    by_cases hz2 : z = "Z2" <;> by_cases hz3 : z = "Z3"
    · rw [hz2] at hz3; exact absurd hz3 (by decide)
    · subst hz2; simp; try ring
    · subst hz3; simp; try ring
    · have c2 : ¬("Z2" = z) := fun hc => hz2 hc.symm
      have c3 : ¬("Z3" = z) := fun hc => hz3 hc.symm
      rw [if_neg c3, if_neg c2, if_neg (by simp [hz2, hz3])]
      ring
  · by_cases h34 : r.zone = "Z3_Z4"
    · unfold zone_km_step zone_credit
      rw [if_pos (Or.inr h34), if_neg h23, if_pos h34, h34]
      have hsplit : pySplitOn '_' "Z3_Z4".toList = [['Z', '3'], ['Z', '4']] := by decide
      rw [hsplit]
      simp only [List.foldl_cons, List.foldl_nil, e3, e4]
      simp only [dget_dset]
      by_cases hz3 : z = "Z3" <;> by_cases hz4 : z = "Z4"
      · rw [hz3] at hz4; exact absurd hz4 (by decide)
      · subst hz3; simp; try ring
      · subst hz4; simp; try ring
      · have c3 : ¬("Z3" = z) := fun hc => hz3 hc.symm
        have c4 : ¬("Z4" = z) := fun hc => hz4 hc.symm
        rw [if_neg c4, if_neg c3, if_neg (by simp [hz3, hz4])]
        ring
    · unfold zone_km_step zone_credit
      rw [if_neg (by simp [h23, h34]), if_neg h23, if_neg h34]
      rw [dget_dset]
      by_cases hz : r.zone = z
      · rw [if_pos hz, if_pos hz, hz]
        try ring
      · rw [if_neg hz, if_neg hz]
        try ring

theorem dget_zone_km_foldl :
    ∀ (rows : List Row) (acc : List (String × ℚ)) (z : String),
      dget (rows.foldl zone_km_step acc) z =
        dget acc z + (rows.map (fun r => zone_credit r z)).sum := by
  intro rows
  induction rows with
  | nil => intro acc z; simp
  | cons r rest ih =>
    intro acc z
    simp only [List.foldl_cons, List.map_cons, List.sum_cons]
    rw [ih, dget_zone_km_step]
    ring

theorem pyRound_int (n : ℤ) : pyRound ((n : ℚ)) = n := by
  unfold pyRound
  rw [Int.floor_intCast]
  rw [if_pos (by norm_num)]

theorem round1_int (n : ℤ) : round1 ((n : ℚ)) = (n : ℚ) := by
  unfold round1
  rw [show ((n : ℚ) * 10) = ((n * 10 : ℤ) : ℚ) by push_cast; ring, pyRound_int]
  push_cast
  rw [mul_div_assoc]
  norm_num

theorem round2_int (n : ℤ) : round2 ((n : ℚ)) = (n : ℚ) := by
  unfold round2
  rw [show ((n : ℚ) * 100) = ((n * 100 : ℤ) : ℚ) by push_cast; ring, pyRound_int]
  push_cast
  rw [mul_div_assoc]
  norm_num

theorem pyTrunc_eq_zero {q : ℚ} (h0 : 0 ≤ q) (h1 : q < 1) : pyTrunc q = 0 := by
  unfold pyTrunc
  rw [if_pos h0]
  exact Int.floor_eq_zero_iff.mpr ⟨h0, h1⟩

theorem pyRound_eq_zero {q : ℚ} (h0 : 0 ≤ q) (h1 : q < 1 / 2) : pyRound q = 0 := by
  unfold pyRound
  have hf : ⌊q⌋ = 0 := Int.floor_eq_zero_iff.mpr ⟨h0, by linarith⟩
  rw [hf]
  simp only [Int.cast_zero, sub_zero]
  rw [if_pos h1]

theorem pyRound_eq_one {q : ℚ} (h0 : 1 / 2 < q) (h1 : q < 1) : pyRound q = 1 := by
  unfold pyRound
  have hf : ⌊q⌋ = 0 := Int.floor_eq_zero_iff.mpr ⟨by linarith, h1⟩
  rw [hf]
  simp only [Int.cast_zero, sub_zero]
  rw [if_neg (by linarith), if_pos h0]
  norm_num

theorem format_pace_tiny_zero {pace : ℚ} (h0 : 0 ≤ pace) (h1 : pace * 60 < 1 / 2) :
    format_pace pace = "0:00 /km" := by
  simp only [format_pace]
  rw [pyTrunc_eq_zero h0 (by linarith)]
  simp only [Int.cast_zero, sub_zero]
  rw [pyRound_eq_zero (by positivity) h1]
  norm_num
  decide

theorem format_pace_tiny_one {pace : ℚ} (h0 : 1 / 2 < pace * 60) (h1 : pace * 60 < 1) :
    format_pace pace = "0:01 /km" := by
  have hp0 : 0 ≤ pace := by nlinarith
  simp only [format_pace]
  rw [pyTrunc_eq_zero hp0 (by nlinarith)]
  simp only [Int.cast_zero, sub_zero]
  rw [pyRound_eq_one h0 h1]
  norm_num
  decide

theorem round1_eval {q : ℚ} {n : ℤ} (h : q = (n : ℚ)) : round1 q = (n : ℚ) := by
  rw [h, round1_int]

theorem round2_eval {q : ℚ} {n : ℤ} (h : q = (n : ℚ)) : round2 q = q := by
  rw [h, round2_int]

theorem expand_pfitz_7000 :
    expand_plan "Pfitzinger" 100 7000 = some pfitzinger_week_7000 := by
  have hmp : (7000 : ℚ) ≠ 0 := by norm_num
  have hz1 : zone_factor "Z1" = 78 / 100 := by with_unfolding_all decide
  have hz2 : zone_factor "Z2" = 88 / 100 := by with_unfolding_all decide
  have hz4 : zone_factor "Z4" = 108 / 100 := by with_unfolding_all decide
  have hz5 : zone_factor "Z5" = 118 / 100 := by with_unfolding_all decide
  have hz23 : zone_factor "Z2_Z3" = 93 / 100 := by with_unfolding_all decide
  have hb1 : expand_block 100 7000 ⟨"Mon", "Recovery", "Z1", 10/100⟩ =
      some ⟨"Mon", "Recovery", "Z1", 10, "0:01 /km", 5460⟩ := by
    rw [expand_block_eq 100 7000 hmp]
    simp only [hz1]
    rw [round1_eval (by norm_num : (100 : ℚ) * (10/100) = ((10:ℤ) : ℚ))]
    rw [show (7000 : ℚ) * (78/100) = 5460 by norm_num]
    rw [round2_eval (by norm_num : (5460 : ℚ) = ((5460:ℤ) : ℚ))]
    rw [format_pace_tiny_one (by norm_num) (by norm_num)]
    norm_num
  have hb2 : expand_block 100 7000 ⟨"Tue", "LT / Tempo", "Z4", 15/100⟩ =
      some ⟨"Tue", "LT / Tempo", "Z4", 15, "0:00 /km", 7560⟩ := by
    rw [expand_block_eq 100 7000 hmp]
    simp only [hz4]
    rw [round1_eval (by norm_num : (100 : ℚ) * (15/100) = ((15:ℤ) : ℚ))]
    rw [show (7000 : ℚ) * (108/100) = 7560 by norm_num]
    rw [round2_eval (by norm_num : (7560 : ℚ) = ((7560:ℤ) : ℚ))]
    rw [format_pace_tiny_zero (by norm_num) (by norm_num)]
    norm_num
  have hb3 : expand_block 100 7000 ⟨"Wed", "Medium Long", "Z2", 18/100⟩ =
      some ⟨"Wed", "Medium Long", "Z2", 18, "0:01 /km", 6160⟩ := by
    rw [expand_block_eq 100 7000 hmp]
    simp only [hz2]
    rw [round1_eval (by norm_num : (100 : ℚ) * (18/100) = ((18:ℤ) : ℚ))]
    rw [show (7000 : ℚ) * (88/100) = 6160 by norm_num]
    rw [round2_eval (by norm_num : (6160 : ℚ) = ((6160:ℤ) : ℚ))]
    rw [format_pace_tiny_one (by norm_num) (by norm_num)]
    norm_num
  have hb4 : expand_block 100 7000 ⟨"Thu", "Recovery", "Z1", 10/100⟩ =
      some ⟨"Thu", "Recovery", "Z1", 10, "0:01 /km", 5460⟩ := by
    rw [expand_block_eq 100 7000 hmp]
    simp only [hz1]
    rw [round1_eval (by norm_num : (100 : ℚ) * (10/100) = ((10:ℤ) : ℚ))]
    rw [show (7000 : ℚ) * (78/100) = 5460 by norm_num]
    rw [round2_eval (by norm_num : (5460 : ℚ) = ((5460:ℤ) : ℚ))]
    rw [format_pace_tiny_one (by norm_num) (by norm_num)]
    norm_num
  have hb5 : expand_block 100 7000 ⟨"Fri", "General Aerobic", "Z2", 12/100⟩ =
      some ⟨"Fri", "General Aerobic", "Z2", 12, "0:01 /km", 6160⟩ := by
    rw [expand_block_eq 100 7000 hmp]
    simp only [hz2]
    rw [round1_eval (by norm_num : (100 : ℚ) * (12/100) = ((12:ℤ) : ℚ))]
    rw [show (7000 : ℚ) * (88/100) = 6160 by norm_num]
    rw [round2_eval (by norm_num : (6160 : ℚ) = ((6160:ℤ) : ℚ))]
    rw [format_pace_tiny_one (by norm_num) (by norm_num)]
    norm_num
  have hb6 : expand_block 100 7000 ⟨"Sat", "VO2 / Intervals", "Z5", 10/100⟩ =
      some ⟨"Sat", "VO2 / Intervals", "Z5", 10, "0:00 /km", 8260⟩ := by
    rw [expand_block_eq 100 7000 hmp]
    simp only [hz5]
    rw [round1_eval (by norm_num : (100 : ℚ) * (10/100) = ((10:ℤ) : ℚ))]
    rw [show (7000 : ℚ) * (118/100) = 8260 by norm_num]
    rw [round2_eval (by norm_num : (8260 : ℚ) = ((8260:ℤ) : ℚ))]
    rw [format_pace_tiny_zero (by norm_num) (by norm_num)]
    norm_num
  have hb7 : expand_block 100 7000 ⟨"Sun", "Long Run (with MP finish)", "Z2_Z3", 25/100⟩ =
      some ⟨"Sun", "Long Run (with MP finish)", "Z2_Z3", 25, "0:01 /km", 6510⟩ := by
    rw [expand_block_eq 100 7000 hmp]
    simp only [hz23]
    rw [round1_eval (by norm_num : (100 : ℚ) * (25/100) = ((25:ℤ) : ℚ))]
    rw [show (7000 : ℚ) * (93/100) = 6510 by norm_num]
    rw [round2_eval (by norm_num : (6510 : ℚ) = ((6510:ℤ) : ℚ))]
    rw [format_pace_tiny_one (by norm_num) (by norm_num)]
    norm_num
  have halist : alist_get PLAN_TEMPLATES "Pfitzinger" = some
      [⟨"Mon", "Recovery", "Z1", 10/100⟩,
       ⟨"Tue", "LT / Tempo", "Z4", 15/100⟩,
       ⟨"Wed", "Medium Long", "Z2", 18/100⟩,
       ⟨"Thu", "Recovery", "Z1", 10/100⟩,
       ⟨"Fri", "General Aerobic", "Z2", 12/100⟩,
       ⟨"Sat", "VO2 / Intervals", "Z5", 10/100⟩,
       ⟨"Sun", "Long Run (with MP finish)", "Z2_Z3", 25/100⟩] := by
    with_unfolding_all rfl
  simp only [expand_plan, halist, List.map_cons, List.map_nil]
  rw [hb1, hb2, hb3, hb4, hb5, hb6, hb7]
  simp [seqOption, pfitzinger_week_7000]


theorem parse_chars_0_01 : parse_time_to_min_chars ['0', ':', '0', '1'] = some (1 / 60) := by
  have hseq : seqOption (List.map pyIntOfChars
      (pySplitOn ':' (pyStrip ['0', ':', '0', '1']))) = some [0, 1] := by decide
  simp [parse_time_to_min_chars, hseq]

theorem parse_chars_0_00 : parse_time_to_min_chars ['0', ':', '0', '0'] = some 0 := by
  have hseq : seqOption (List.map pyIntOfChars
      (pySplitOn ':' (pyStrip ['0', ':', '0', '0']))) = some [0, 0] := by decide
  simp [parse_time_to_min_chars, hseq]

theorem row_pace_min_0_01 (r : Row) (hr : r.target_pace = "0:01 /km") :
    row_pace_min r = some (some (1 / 60)) := by
  have hsplit : pySplitWs "0:01 /km".toList = [['0', ':', '0', '1'], ['/', 'k', 'm']] := by
    decide
  unfold row_pace_min
  rw [hr, hsplit]
  simp [parse_chars_0_01]

theorem row_pace_min_0_00 (r : Row) (hr : r.target_pace = "0:00 /km") :
    row_pace_min r = some (some 0) := by
  have hsplit : pySplitWs "0:00 /km".toList = [['0', ':', '0', '0'], ['/', 'k', 'm']] := by
    decide
  unfold row_pace_min
  rw [hr, hsplit]
  simp [parse_chars_0_00]

theorem pfitz_rows_spec_values :
    spec_total_km pfitzinger_week_7000 = 100 ∧
    spec_time_h pfitzinger_week_7000 = 1 / 48 ∧
    spec_valid_km pfitzinger_week_7000 = 75 := by
  have e1 : row_valid ⟨"Mon", "Recovery", "Z1", 10, "0:01 /km", 5460⟩ = true :=
    row_valid_of_pace (row_pace_min_0_01 _ rfl) (by norm_num)
  have e2 : row_valid ⟨"Tue", "LT / Tempo", "Z4", 15, "0:00 /km", 7560⟩ = false :=
    row_valid_false_of_nonpos (row_pace_min_0_00 _ rfl) (by norm_num)
  have e3 : row_valid ⟨"Wed", "Medium Long", "Z2", 18, "0:01 /km", 6160⟩ = true :=
    row_valid_of_pace (row_pace_min_0_01 _ rfl) (by norm_num)
  have e4 : row_valid ⟨"Thu", "Recovery", "Z1", 10, "0:01 /km", 5460⟩ = true :=
    row_valid_of_pace (row_pace_min_0_01 _ rfl) (by norm_num)
  have e5 : row_valid ⟨"Fri", "General Aerobic", "Z2", 12, "0:01 /km", 6160⟩ = true :=
    row_valid_of_pace (row_pace_min_0_01 _ rfl) (by norm_num)
  have e6 : row_valid ⟨"Sat", "VO2 / Intervals", "Z5", 10, "0:00 /km", 8260⟩ = false :=
    row_valid_false_of_nonpos (row_pace_min_0_00 _ rfl) (by norm_num)
  have e7 : row_valid
      ⟨"Sun", "Long Run (with MP finish)", "Z2_Z3", 25, "0:01 /km", 6510⟩ = true :=
    row_valid_of_pace (row_pace_min_0_01 _ rfl) (by norm_num)
  have p1 : row_pace_val ⟨"Mon", "Recovery", "Z1", 10, "0:01 /km", 5460⟩ = 1 / 60 :=
    row_pace_val_eq (row_pace_min_0_01 _ rfl)
  have p3 : row_pace_val ⟨"Wed", "Medium Long", "Z2", 18, "0:01 /km", 6160⟩ = 1 / 60 :=
    row_pace_val_eq (row_pace_min_0_01 _ rfl)
  have p4 : row_pace_val ⟨"Thu", "Recovery", "Z1", 10, "0:01 /km", 5460⟩ = 1 / 60 :=
    row_pace_val_eq (row_pace_min_0_01 _ rfl)
  have p5 : row_pace_val ⟨"Fri", "General Aerobic", "Z2", 12, "0:01 /km", 6160⟩ = 1 / 60 :=
    row_pace_val_eq (row_pace_min_0_01 _ rfl)
  have p7 : row_pace_val
      ⟨"Sun", "Long Run (with MP finish)", "Z2_Z3", 25, "0:01 /km", 6510⟩ = 1 / 60 :=
    row_pace_val_eq (row_pace_min_0_01 _ rfl)
  refine ⟨?_, ?_, ?_⟩
  · simp [spec_total_km, pfitzinger_week_7000]
    norm_num
  · simp [spec_time_h, pfitzinger_week_7000, List.filter, e1, e2, e3, e4, e5, e6, e7,
      p1, p3, p4, p5, p7]
    norm_num
  · simp [spec_valid_km, pfitzinger_week_7000, List.filter, e1, e2, e3, e4, e5, e6, e7]
    norm_num

theorem pfitz_rows_ats : compute_weekly_ats pfitzinger_week_7000 = some 4800 := by
  have h1 : ∀ r ∈ pfitzinger_week_7000, has_pace_token r = true := by
    intro r hr
    fin_cases hr <;> decide
  have h2 : ∀ r ∈ pfitzinger_week_7000, row_valid r = true → r.distance_km ≠ 0 := by
    intro r hr _
    fin_cases hr <;> norm_num
  rw [compute_weekly_ats_spec _ h1 h2]
  rw [pfitz_rows_spec_values.1, pfitz_rows_spec_values.2.1]
  norm_num

/-! ### Claim theorems -/

/-- Claim C3: for every ATS > 0 and DF > 0 the marathon prediction returned
by `marathon_time_from_ats_df` equals `4666 * ATS ^ (-1.33) / DF` plus the
flat +8-minute offset, and in particular `marathon_time_from_ats_df 13.2 1`
equals `4666 * 13.2 ^ (-1.33) + 8` minutes. -/
theorem C3_marathon_prediction_formula :
    (∀ ats df : ℝ, 0 < ats → 0 < df →
        marathon_time_from_ats_df ats df =
          4666 * Real.rpow ats (-1.33) / df + 8) ∧
    marathon_time_from_ats_df 13.2 1 = 4666 * Real.rpow 13.2 (-1.33) + 8 := by
  constructor
  · intro ats df _ _
    rfl
  · unfold marathon_time_from_ats_df
    rw [div_one]

/-- Witness for C3 at the concrete input `ATS = 12`, `DF = 2`. -/
theorem C3_marathon_prediction_formula_witness :
    marathon_time_from_ats_df 12 2 = 4666 * Real.rpow 12 (-1.33) / 2 + 8 :=
  C3_marathon_prediction_formula.1 12 2 (by norm_num) (by norm_num)

/-- Claim C2 (amended): whenever `estimate_df_from_decay_and_volume` returns
a value it lies in the declared clamp range `[0.75, 1.30]`, and with both
times given and a nonzero 10K time the value is exactly the Decay+Volume
recipe (Riegel `t10k * (42.195/10) ^ 1.06`, decay against 1.08 scaled by
1.5, volume factor `1 + 0.15 * (annual/6000 - 1)`, clamped); but for a zero
10K time with a marathon time present the Python code raises
`ZeroDivisionError` instead of returning a clamped value. -/
theorem C2_df_decay_volume_bounds :
    (∀ (ten_k_min marathon_min : Option ℝ) (annual_km df : ℝ),
        estimate_df_from_decay_and_volume ten_k_min marathon_min annual_km =
          some df →
        0.75 ≤ df ∧ df ≤ 1.30) ∧
    (∀ t mar annual_km : ℝ, t ≠ 0 →
        estimate_df_from_decay_and_volume (some t) (some mar) annual_km =
          some (max 0.75 (min 1.30
            ((1 + (1.08 - mar / (t * Real.rpow (42.195 / 10) 1.06)) * 1.5) *
              (1 + 0.15 * (annual_km / 6000 - 1)))))) := by
  have hbounds : ∀ x : ℝ,
      0.75 ≤ max 0.75 (min 1.30 x) ∧ max 0.75 (min 1.30 x) ≤ 1.30 :=
    fun x => ⟨le_max_left _ _, max_le (by norm_num) (min_le_left _ _)⟩
  constructor
  · intro tk mm a df h
    simp only [estimate_df_from_decay_and_volume] at h
    cases tk with
    | none =>
      simp only [Option.map_some', Option.some.injEq] at h
      exact h ▸ hbounds _
    | some t =>
      cases mm with
      | none =>
        simp only [Option.map_some', Option.some.injEq] at h
        exact h ▸ hbounds _
      | some mar =>
        replace h : Option.map
            (fun df_base =>
              max 0.75 (min 1.30 (df_base * (1 + 0.15 * (a / 6000 - 1)))))
            (if t * Real.rpow (42.195 / 10) 1.06 = 0 then none
             else some (1 + (1.08 - mar / (t * Real.rpow (42.195 / 10) 1.06)) * 1.5)) =
            some df := h
        by_cases hpred : t * Real.rpow (42.195 / 10) 1.06 = 0
        · rw [if_pos hpred] at h
          simp at h
        · rw [if_neg hpred] at h
          simp only [Option.map_some', Option.some.injEq] at h
          exact h ▸ hbounds _
  · intro t mar a ht
    have hCpos : (0:ℝ) < Real.rpow (42.195 / 10) 1.06 :=
      Real.rpow_pos_of_pos (by norm_num) _
    show Option.map
        (fun df_base =>
          max 0.75 (min 1.30 (df_base * (1 + 0.15 * (a / 6000 - 1)))))
        (if t * Real.rpow (42.195 / 10) 1.06 = 0 then none
         else some (1 + (1.08 - mar / (t * Real.rpow (42.195 / 10) 1.06)) * 1.5)) =
        some _
    rw [if_neg (mul_ne_zero ht (ne_of_gt hCpos))]
    rfl

/-- Counterexample to C2 as stated: at the finite inputs
`ten_k_min = 0` (a parseable "0:00" time), `marathon_min = 180`,
`annual_km = 6000` the code divides by a zero Riegel prediction and raises,
returning no value at all. -/
theorem C2_df_decay_volume_counterexample :
    estimate_df_from_decay_and_volume (some 0) (some 180) 6000 = none := by
  simp [estimate_df_from_decay_and_volume]

/-- Witness for C2 at the concrete input `(none, none, 0)`, where the
returned DF is `0.85`. -/
theorem C2_df_decay_volume_witness : (0.75 : ℝ) ≤ 0.85 ∧ (0.85 : ℝ) ≤ 1.30 := by
  have h : estimate_df_from_decay_and_volume none none 0 = some 0.85 := by
    unfold estimate_df_from_decay_and_volume
    simp only [Option.map_some', Option.some.injEq]
    norm_num [min_def, max_def]
  exact C2_df_decay_volume_bounds.1 none none 0 0.85 h

/-- Claim C8: for every speed `s > 0` and distance `d > 0`, converting `s`
to a pace with `pace_from_speed` and back through
`speed_from_time d (d * pace)` recovers `s` (exactly, over `ℚ`). -/
theorem C8_pace_speed_round_trip :
    ∀ s d : ℚ, 0 < s → 0 < d →
      (pace_from_speed s).bind (fun p => speed_from_time d (d * p)) = some s := by
  intro s d hs hd
  have hs0 : s ≠ 0 := ne_of_gt hs
  have hd0 : d ≠ 0 := ne_of_gt hd
  simp only [pace_from_speed, if_neg hs0, Option.some_bind]
  have h1 : d * (60 / s) / 60 = d / s := by
    field_simp
    ring
  unfold speed_from_time
  rw [h1, if_neg (div_ne_zero hd0 hs0)]
  have h2 : d / (d / s) = s := by
    field_simp
  rw [h2]

/-- Witness for C8 at the concrete input `s = 12`, `d = 10`. -/
theorem C8_pace_speed_round_trip_witness :
    (pace_from_speed 12).bind (fun p => speed_from_time 10 (10 * p)) = some 12 :=
  C8_pace_speed_round_trip 12 10 (by norm_num) (by norm_num)

/-- Claim C4: parsing is pure and total — for every string,
`parse_time_to_min` returns a finite minutes value or the explicit `None`,
and in particular returns `None` on empty, non-numeric, and wrongly shaped
inputs. -/
theorem C4_parse_total :
    (∀ s : String,
        parse_time_to_min s = none ∨ ∃ q : ℚ, parse_time_to_min s = some q) ∧
    parse_time_to_min "41:32" = some (41 + 32 / 60) ∧
    parse_time_to_min "" = none ∧
    parse_time_to_min "abc" = none ∧
    parse_time_to_min "1:2:3:4" = none := by
  have hhappy : parse_time_to_min "41:32" = some (41 + 32 / 60) := by
    have hseq : seqOption (List.map pyIntOfChars
        (pySplitOn ':' (pyStrip ['4', '1', ':', '3', '2']))) = some [41, 32] := by
      decide
    simp [parse_time_to_min, parse_time_to_min_chars, hseq]
  refine ⟨fun s => ?_, hhappy, rfl, by decide, by decide⟩
  cases parse_time_to_min s with
  | none => exact Or.inl rfl
  | some q => exact Or.inr ⟨q, rfl⟩

/-- Counterexample to C5 as stated: the bare number `"45"` does not parse
to 45 minutes — the code rejects every colon-free string. -/
theorem C5_bare_number_counterexample :
    parse_time_to_min "45" = none ∧ parse_time_to_min "45" ≠ some 45 := by
  have h0 : parse_time_to_min "45" = none := by decide
  refine ⟨h0, ?_⟩
  intro h
  rw [h0] at h
  exact Option.noConfusion h

/-- Claim C5 (amended): a bare number is rejected, not interpreted as
minutes — `parse_time_to_min` returns `None` for every string without a
colon, because only the 2-part `mm:ss` and 3-part `h:mm:ss` shapes are
accepted. -/
theorem C5_bare_number_rejected (s : String) (h : ':' ∉ s.toList) :
    parse_time_to_min s = none := by
  unfold parse_time_to_min parse_time_to_min_chars
  by_cases he : s.toList = []
  · rw [if_pos he]
  · rw [if_neg he]
    have h2 : ':' ∉ pyStrip s.toList := fun hc => h (mem_of_mem_pyStrip hc)
    rw [pySplitOn_of_not_mem h2]
    cases hp : pyIntOfChars (pyStrip s.toList) <;>
      simp only [String.toList] at hp ⊢ <;> simp [seqOption, hp]

/-- Witness for C5 (amended) at the concrete input `"7"`. -/
theorem C5_bare_number_rejected_witness :
    ':' ∉ "7".toList ∧ parse_time_to_min "7" = none :=
  ⟨by decide, C5_bare_number_rejected "7" (by decide)⟩

/-- Counterexample to C6 as stated: at 5 minutes (a non-negative value
under one hour) the output is `"5:00"`, which has 2 colon-separated
components, not 3. -/
theorem C6_format_counterexample :
    format_min_to_hms 5 = "5:00" ∧
      (pySplitOn ':' (format_min_to_hms 5).toList).length = 2 ∧
      (pySplitOn ':' (format_min_to_hms 5).toList).length ≠ 3 := by
  refine ⟨by with_unfolding_all rfl, by with_unfolding_all rfl, ?_⟩
  intro h
  rw [show (pySplitOn ':' (format_min_to_hms 5).toList).length = 2 from
    by with_unfolding_all rfl] at h
  exact absurd h (by norm_num)

/-- Claim C6 (amended): `format_min_to_hms` produces 3 colon-separated
components only when the rounded total is at least one hour — then the
minute and second components are zero-padded to width 2 and the hour
component is rendered without padding — and 2 components (`m:ss`) below one
hour; in particular `format_min_to_hms 125.5` is `"2:05:30"`. -/
theorem C6_format_hms_components :
    format_min_to_hms 125.5 = "2:05:30" ∧
    (∀ minutes : ℚ,
      (pySplitOn ':' (format_min_to_hms minutes).toList).length =
        if 3600 ≤ pyRound (minutes * 60) then 3 else 2) ∧
    (∀ minutes : ℚ, 3600 ≤ pyRound (minutes * 60) →
      pySplitOn ':' (format_min_to_hms minutes).toList =
        [intStr (pyRound (minutes * 60) / 3600),
         pad2 (pyRound (minutes * 60) % 3600 / 60),
         pad2 (pyRound (minutes * 60) % 60)] ∧
      (pad2 (pyRound (minutes * 60) % 3600 / 60)).length = 2 ∧
      (pad2 (pyRound (minutes * 60) % 60)).length = 2) := by
  refine ⟨by with_unfolding_all rfl, format_min_to_hms_components, ?_⟩
  intro minutes h
  refine ⟨format_min_to_hms_split minutes h, ?_, ?_⟩
  · exact pad2_length (by omega) (by omega)
  · exact pad2_length (by omega) (by omega)

/-- Witness for C6 (amended) at the concrete input 125.5 minutes. -/
theorem C6_format_hms_components_witness :
    pySplitOn ':' (format_min_to_hms 125.5).toList =
      [intStr (pyRound ((125.5 : ℚ) * 60) / 3600),
       pad2 (pyRound ((125.5 : ℚ) * 60) % 3600 / 60),
       pad2 (pyRound ((125.5 : ℚ) * 60) % 60)] ∧
    (pad2 (pyRound ((125.5 : ℚ) * 60) % 3600 / 60)).length = 2 ∧
    (pad2 (pyRound ((125.5 : ℚ) * 60) % 60)).length = 2 :=
  C6_format_hms_components.2.2 125.5 (by with_unfolding_all decide)

/-- Claim C9: in the `zone_km` aggregation of `summarize_zones`, each mixed
label `"Z2_Z3"`/`"Z3_Z4"` credits exactly half of the row's kilometres to
each constituent zone, and every other row credits its full distance to its
own zone label. -/
theorem C9_mixed_zones_split_evenly :
    ∀ (rows : List Row) (z : String),
      dget (zone_km rows) z = (rows.map (fun r => zone_credit r z)).sum := by
  intro rows z
  unfold zone_km
  rw [dget_zone_km_foldl rows [] z]
  simp [dget]

theorem expand_plan_eval (plan_name : String) (w mp : ℚ) (hmp : mp ≠ 0)
    (template : List Block)
    (halist : alist_get PLAN_TEMPLATES plan_name = some template) :
    expand_plan plan_name w mp = some (template.map (fun b =>
      (⟨b.day, b.name, b.zone, round1 (w * b.dist_pct),
        format_pace (60 / (mp * zone_factor b.zone)),
        round2 (mp * zone_factor b.zone)⟩ : Row))) := by
  simp only [expand_plan, halist]
  exact seqOption_map_of_some _ _ _ (fun b _ => expand_block_eq w mp hmp b)

theorem expand_rows_dist_sum (w mp : ℚ) (template : List Block) :
    ((template.map (fun b =>
        (⟨b.day, b.name, b.zone, round1 (w * b.dist_pct),
          format_pace (60 / (mp * zone_factor b.zone)),
          round2 (mp * zone_factor b.zone)⟩ : Row))).map Row.distance_km).sum =
      ((template.map Block.dist_pct).map (fun p => round1 (w * p))).sum := by
  rw [List.map_map, List.map_map]
  rfl

/-- Claim C10: every one of the four plan templates has day fractions
summing to exactly 1 (each has 7 days), so whenever `expand_plan` returns a
plan its per-day distances sum to the requested weekly distance up to the
per-row rounding to one decimal place (at most 1/20 per row, 7 rows). -/
theorem C10_template_fractions_sum :
    (∀ p ∈ PLAN_TEMPLATES, (p.2.map Block.dist_pct).sum = 1 ∧ p.2.length = 7) ∧
    ∀ (plan_name : String) (weekly_km mp_speed : ℚ),
      (expand_plan plan_name weekly_km mp_speed).isSome = true →
      |(((expand_plan plan_name weekly_km mp_speed).getD []).map
          Row.distance_km).sum - weekly_km| ≤ 7 * (1 / 20) := by
  have hall : ∀ p ∈ PLAN_TEMPLATES,
      (p.2.map Block.dist_pct).sum = 1 ∧ p.2.length = 7 := by
    with_unfolding_all decide
  refine ⟨hall, ?_⟩
  intro plan_name w mp h
  cases halist : alist_get PLAN_TEMPLATES plan_name with
  | none =>
    rw [expand_plan, halist] at h
    simp at h
  | some template =>
    have hprops := hall _ (alist_get_mem _ _ _ halist)
    by_cases hmp : mp = 0
    · exfalso
      subst hmp
      cases htempl : template with
      | nil => rw [htempl] at hprops; simp at hprops
      | cons b rest =>
        rw [expand_plan, halist, htempl] at h
        simp only [List.map_cons, seqOption, expand_block_mp_zero] at h
        simp at h
    · rw [expand_plan_eval plan_name w mp hmp template halist] at h ⊢
      simp only [Option.getD_some]
      rw [expand_rows_dist_sum]
      have hb := sum_round1_dist w (template.map Block.dist_pct)
      rw [hprops.1, mul_one] at hb
      have hlen : (template.map Block.dist_pct).length = 7 := by
        rw [List.length_map, hprops.2]
      rw [hlen] at hb
      have hcast : ((7 : ℕ) : ℚ) = 7 := by norm_num
      rw [hcast] at hb
      exact hb

/-- Witness for C10 at the concrete input `("Daniels", 112, 12)`. -/
theorem C10_template_fractions_sum_witness :
    (expand_plan "Daniels" 112 12).isSome = true ∧
    |(((expand_plan "Daniels" 112 12).getD []).map Row.distance_km).sum - 112|
      ≤ 7 * (1 / 20) :=
  ⟨by with_unfolding_all decide,
   C10_template_fractions_sum.2 "Daniels" 112 12 (by with_unfolding_all decide)⟩

/-- Counterexample to C1 as stated: on the weekly plan actually generated
by `expand_plan "Pfitzinger" 100 7000` — whose Z4 and Z5 rows have the
target pace `"0:00 /km"`, which parses to the invalid pace 0 —
`compute_weekly_ats` returns 4800 km/h, because its numerator is the total
distance over ALL rows (100 km) rather than the 75 km of valid rows, while
the claimed formula over valid segments gives 3600 km/h. -/
theorem C1_weekly_ats_counterexample :
    (expand_plan "Pfitzinger" 100 7000).bind compute_weekly_ats = some 4800 ∧
    spec_valid_km ((expand_plan "Pfitzinger" 100 7000).getD []) /
      spec_time_h ((expand_plan "Pfitzinger" 100 7000).getD []) = 3600 ∧
    (4800 : ℚ) ≠ 3600 := by
  rw [expand_pfitz_7000]
  refine ⟨?_, ?_, by norm_num⟩
  · simp only [Option.some_bind]
    exact pfitz_rows_ats
  · simp only [Option.getD_some]
    rw [pfitz_rows_spec_values.2.1, pfitz_rows_spec_values.2.2]
    norm_num

/-- The same numerator divergence on a minimal hand-written plan: one valid
row of 10 km at 5:00 min/km plus one 10 km row whose pace does not parse;
the code returns 24 km/h, the valid-segments formula 12 km/h. -/
theorem invalid_pace_row_ats_example :
    compute_weekly_ats [⟨"Mon", "A", "Z1", 10, "5:00 /km", 12⟩,
        ⟨"Tue", "B", "Z1", 10, "zz /km", 0⟩] = some 24 ∧
    spec_valid_km [(⟨"Mon", "A", "Z1", 10, "5:00 /km", 12⟩ : Row),
        ⟨"Tue", "B", "Z1", 10, "zz /km", 0⟩] /
      spec_time_h [(⟨"Mon", "A", "Z1", 10, "5:00 /km", 12⟩ : Row),
        ⟨"Tue", "B", "Z1", 10, "zz /km", 0⟩] = 12 := by
  constructor
  · with_unfolding_all decide
  · with_unfolding_all decide

/-- Claim C1 (amended): when no pace cell is token-less and every row whose
pace parses to a positive value has nonzero distance (otherwise the Python
code raises), `compute_weekly_ats` returns total distance over ALL rows
divided by (total minutes over valid rows / 60) — distances of invalid
rows DO contribute to the numerator — where a row is valid exactly when its
pace string's first token parses to a positive value; the result is the
sentinel 0.0 when the total distance or the total valid time is zero. -/
theorem C1_weekly_ats_aggregate (rows : List Row)
    (h1 : ∀ r ∈ rows, has_pace_token r = true)
    (h2 : ∀ r ∈ rows, row_valid r = true → r.distance_km ≠ 0) :
    compute_weekly_ats rows =
      some (if spec_total_km rows = 0 then 0
            else if spec_time_h rows = 0 then 0
            else spec_total_km rows / spec_time_h rows) :=
  compute_weekly_ats_spec rows h1 h2

/-- Witness for C1 (amended) on a concrete one-row plan:
10 km at pace 5:00 min/km gives ATS 12 km/h. -/
theorem C1_weekly_ats_aggregate_witness :
    compute_weekly_ats [⟨"Mon", "Easy", "Z1", 10, "5:00 /km", 12⟩] = some 12 := by
  have h := C1_weekly_ats_aggregate [⟨"Mon", "Easy", "Z1", 10, "5:00 /km", 12⟩]
    (by with_unfolding_all decide) (by with_unfolding_all decide)
  rw [h]
  with_unfolding_all decide

/-- Counterexample to C7 as stated: on a plan whose total valid time is
zero (the only valid-pace row has distance 0, the other row's pace does not
parse), the code raises `ZeroDivisionError` inside the `speeds` loop
(`speed_from_time(0, 0)`) instead of returning a sentinel — an exception
escapes. -/
theorem C7_zero_time_counterexample :
    spec_time_h [⟨"Mon", "A", "Z1", 5, "xx /km", 0⟩,
        ⟨"Tue", "B", "Z1", 0, "5:00 /km", 12⟩] = 0 ∧
    compute_weekly_ats [⟨"Mon", "A", "Z1", 5, "xx /km", 0⟩,
        ⟨"Tue", "B", "Z1", 0, "5:00 /km", 12⟩] = none := by
  constructor
  · with_unfolding_all decide
  · with_unfolding_all decide

/-- Claim C7 (amended): when the total valid time is zero,
`compute_weekly_ats` returns the numeric sentinel 0.0 (not a `None`-like
marker) with no exception — provided every pace cell has a token and no
valid-pace row has zero distance; with a zero-distance valid-pace row the
code instead raises (see the counterexample). -/
theorem C7_zero_time_sentinel (rows : List Row)
    (h1 : ∀ r ∈ rows, has_pace_token r = true)
    (h2 : ∀ r ∈ rows, row_valid r = true → r.distance_km ≠ 0)
    (h3 : spec_time_h rows = 0) :
    compute_weekly_ats rows = some 0 := by
  rw [compute_weekly_ats_spec rows h1 h2, h3]
  simp

/-- Witness for C7 (amended) on a concrete plan with zero total valid time
(a positive and a negative distance at paces that cancel, plus an invalid
row). -/
theorem C7_zero_time_sentinel_witness :
    compute_weekly_ats [⟨"Mon", "A", "Z1", 10, "5:00 /km", 12⟩,
      ⟨"Tue", "B", "Z1", -5, "10:00 /km", 6⟩,
      ⟨"Wed", "C", "Z1", 1, "xx /km", 0⟩] = some 0 :=
  C7_zero_time_sentinel _ (by with_unfolding_all decide)
    (by with_unfolding_all decide) (by with_unfolding_all decide)
